import Mathlib

/-!
Shallow embedding of the monGARS_webLLM pipeline sources:
`scripts/dataset_prep.py` (dataset canonicalization and deduplication) and
`mongars_factory_cli.py` (stage orchestration, environment composition,
process runner).  Python machine-level details are modelled as follows:
strings are Lean `String`, the SHA-1 content hash is modelled as the hashed
text itself (an injective model of the digest), wall-clock seconds are `ℚ`,
Python `dict` layering is modelled by `Option`-valued lookup functions, and
the mutable dedup `set` is a Lean list used only through membership and
insertion.
-/

namespace MonGars

/-! ### Python string helpers -/

/-- ASCII whitespace, as recognised by Python `str.strip()` on the ASCII
range (space, tab, newline, carriage return, vertical tab, form feed). -/
def isPySpace (c : Char) : Bool :=
  c = ' ' || c = '\t' || c = '\n' || c = '\r' || c = '\x0b' || c = '\x0c'

/-- Model of Python `str.strip()`: drop leading and trailing whitespace. -/
def pyStrip (s : String) : String :=
  ⟨((s.data.dropWhile isPySpace).reverse.dropWhile isPySpace).reverse⟩

/-- Model of Python `str.lower()` (ASCII case folding). -/
def lowerStr (s : String) : String :=
  ⟨s.data.map Char.toLower⟩

/-- Does `needle` occur at the start of `hay`? -/
def charsHavePre : List Char → List Char → Bool
  | [], _ => true
  | _ :: _, [] => false
  | a :: as, b :: bs => a = b && charsHavePre as bs

/-- Does `needle` occur somewhere inside `hay`?  Model of Python's
`needle in hay` substring test, on the character lists. -/
def charsContain (needle hay : List Char) : Bool :=
  match hay with
  | [] => charsHavePre needle []
  | _ :: rest => charsHavePre needle hay || charsContain needle rest

/-- Python `needle in hay` on strings. -/
def strContains (hay needle : String) : Bool :=
  charsContain needle.data hay.data

/-! ### dataset_prep.py: task inference (`infer_task_from_name`) -/

/-- Model of `infer_task_from_name` in `scripts/dataset_prep.py`: lower-case the
dataset name and test the keyword groups in order, first match winning. -/
def inferTaskFromName (name : String) : String :=
  let lower := lowerStr name
  if ["dialog", "chat", "conversation"].any (fun k => strContains lower k) then "dialog"
  else if ["reason", "cot", "step"].any (fun k => strContains lower k) then "reasoning"
  else if ["retrieval", "qa", "q&a", "rag"].any (fun k => strContains lower k) then "retrieval"
  else "instruction"

/-! ### dataset_prep.py: canonical examples and the dedup key -/

/-- One canonical example, as built in `iter_examples_for_entry`:
prompt, response, language, task, optional context, source name. -/
structure CanonicalExample where
  prompt : String
  response : String
  language : String
  task : String
  context : Option String
  source : String
deriving DecidableEq

/-- The dedup key computed in `prepare_datasets`:
`sha1(prompt + "\n\n" + response)` over the already-trimmed canonical
fields.  The SHA-1 digest is modelled injectively by the hashed text. -/
def prepKey (e : CanonicalExample) : String :=
  e.prompt ++ "\n\n" ++ e.response

/-- The dedup key as a function of the raw prompt/response fields: the
canonical fields are `str.strip()`ped in `iter_examples_for_entry`, and
`prepare_datasets` hashes `prompt + "\n\n" + response`. -/
def dedupKey (p r : String) : String :=
  pyStrip p ++ "\n\n" ++ pyStrip r

/-! ### dataset_prep.py: dedup state -/

/-- Model of `DedupState.is_new`: test membership, insert, and report whether the
key was fresh.  Returns the updated seen-set together with the answer. -/
def isNewKey (seen : List String) (key : String) : Bool × List String :=
  if key ∈ seen then (false, seen) else (true, key :: seen)

/-- The possible on-disk situations `DedupState.load` distinguishes:
no file, a file that fails JSON parsing, a parsed file whose top level is
not a list, and a parsed list of hash strings. -/
inductive DedupFile
  | missing
  | unparsable
  | notAList
  | list (hashes : List String)
deriving DecidableEq

/-- Result of `DedupState.load`: the seen-hash set and whether the
failure-warning path was taken. -/
structure DedupLoadResult where
  seen : List String
  warned : Bool
deriving DecidableEq

/-- Model of `DedupState.load`: a missing file starts fresh (info log only); an
unparsable file or a non-list top level is caught, logged as a warning,
and also starts fresh; a parsed list becomes the seen-set. -/
def dedupLoad : DedupFile → DedupLoadResult
  | .missing => ⟨[], false⟩
  | .unparsable => ⟨[], true⟩
  | .notAList => ⟨[], true⟩
  | .list hashes => ⟨hashes, false⟩

/-! ### dataset_prep.py: the prepare loop -/

/-- In-memory state of `prepare_datasets`: the dedup seen-set and the rows
appended to the corpus file during this run (the file is opened in append
mode, so `written` is exactly the growth of the corpus). -/
structure PrepState where
  seen : List String
  written : List CanonicalExample
deriving DecidableEq

/-- The body of the inner loop of `prepare_datasets`: hash the example,
consult/update the dedup state, and append the example to the corpus
exactly when the key is fresh. -/
def processExample (st : PrepState) (ex : CanonicalExample) : PrepState :=
  let key := prepKey ex
  let fresh := isNewKey st.seen key
  if fresh.1 then
    { seen := fresh.2, written := st.written ++ [ex] }
  else
    { seen := fresh.2, written := st.written }

/-- Model of `prepare_datasets` restricted to its dedup/write loop: fold the
canonical example stream over `processExample`, starting from the loaded
seen-set and an empty list of newly appended rows. -/
def prepareDatasets (seen : List String) (exs : List CanonicalExample) : PrepState :=
  exs.foldl processExample ⟨seen, []⟩

/-! ### dataset_prep.py: entries, rows, normalization, subsampling -/

/-- Model of `DatasetEntry` (the fields that drive example production). -/
structure DatasetEntry where
  name : String
  promptField : String
  responseField : String
  contextField : Option String
  language : Option String
  maxExamples : Option Nat
deriving DecidableEq

/-- Model of `PrepConfig` (the fields that drive example production). -/
structure PrepConfig where
  langs : List String
  maxPerDataset : Nat
deriving DecidableEq

/-- One source row: a field-name/value association (Python `dict` row). -/
def Row : Type := List (String × String)

/-- The effective cap computed by `max_examples = entry.max_examples or
cfg.max_per_dataset`: Python `or` falls through on `None` and on `0`. -/
def effectiveMax (entry : DatasetEntry) (cfg : PrepConfig) : Nat :=
  match entry.maxExamples with
  | some n => if n ≠ 0 then n else cfg.maxPerDataset
  | none => cfg.maxPerDataset

/-- The per-row normalization of `iter_examples_for_entry`: extract the
prompt/response fields (a missing field skips the row), strip them, reject
empty values, resolve context and language, apply the language allow-list
(unknown always passes), and build the canonical example. -/
def normalizeRow (entry : DatasetEntry) (cfg : PrepConfig) (row : Row) :
    Option CanonicalExample :=
  match List.lookup entry.promptField row, List.lookup entry.responseField row with
  | some pv, some rv =>
    let prompt := pyStrip pv
    let response := pyStrip rv
    if prompt = "" ∨ response = "" then none
    else
      let context : Option String :=
        match entry.contextField with
        | some cf =>
          match List.lookup cf row with
          | some cv => if pyStrip cv = "" then none else some (pyStrip cv)
          | none => none
        | none => none
      let lang := entry.language.getD "unknown"
      if cfg.langs ≠ [] ∧ lang ∉ cfg.langs ∧ lang ≠ "unknown" then none
      else
        some { prompt := prompt, response := response, language := lang,
               task := inferTaskFromName entry.name, context := context,
               source := entry.name }
  | _, _ => none

/-- The subsampling step of `iter_examples_for_entry`: when the (truthy)
effective cap is exceeded by the row count, shuffle the row indices with
the seeded process RNG (modelled by the `shuffle` argument, one draw of
`random.shuffle` on `list(range(len(ds)))`) and select the rows at the
first `cap` indices. -/
def selectedRows (shuffle : List Nat → List Nat)
    (entry : DatasetEntry) (cfg : PrepConfig) (rows : List Row) : List Row :=
  if effectiveMax entry cfg ≠ 0 ∧ rows.length > effectiveMax entry cfg then
    ((shuffle (List.range rows.length)).take (effectiveMax entry cfg)).filterMap
      (fun i => rows[i]?)
  else rows

/-- Model of `iter_examples_for_entry`: subsample the source rows, then normalize
each retained row. -/
def iterExamplesForEntry (shuffle : List Nat → List Nat)
    (entry : DatasetEntry) (cfg : PrepConfig) (rows : List Row) :
    List CanonicalExample :=
  (selectedRows shuffle entry cfg rows).filterMap (normalizeRow entry cfg)

/-- The canonical example stream of one whole run: the manifest's entries
in order, each contributing its normalized (possibly subsampled) rows. -/
def manifestExamples (shuffle : List Nat → List Nat) (cfg : PrepConfig)
    (manifest : List (DatasetEntry × List Row)) : List CanonicalExample :=
  manifest.flatMap (fun er => iterExamplesForEntry shuffle er.1 cfg er.2)

/-- One dataset run of `prepare_datasets` against a manifest and a loaded
seen-set: produce the canonical stream and fold it through the dedup
loop. -/
def prepareRun (shuffle : List Nat → List Nat) (cfg : PrepConfig)
    (manifest : List (DatasetEntry × List Row)) (seen : List String) :
    PrepState :=
  prepareDatasets seen (manifestExamples shuffle cfg manifest)

/-! ### mongars_factory_cli.py: environment composition (`_build_env`) -/

/-- An environment layer: an `Option`-valued lookup (the function model of
a Python `dict`). -/
def EnvMap : Type := String → Option String

/-- Python `base | overlay` on dicts, as lookups: the overlay's binding
wins where present. -/
def mergeEnv (base overlay : EnvMap) : EnvMap :=
  fun k => match overlay k with
    | some v => some v
    | none => base k

/-- The fixed build-profile marker key. -/
def profileKey : String := "MONGARS_MODEL_PROFILE"

/-- Model of `_build_env`: copy the inherited process environment, overlay the
global environment if given, overlay the extra (stage or stage∪task)
environment if given, then `setdefault` the build-profile marker when a
(truthy, hence non-empty) profile is supplied. -/
def buildEnv (inherited : EnvMap) (globalEnv extra : Option EnvMap)
    (modelProfile : Option String) : EnvMap :=
  let m1 := match globalEnv with
    | some g => mergeEnv inherited g
    | none => inherited
  let m2 := match extra with
    | some e => mergeEnv m1 e
    | none => m1
  match modelProfile with
  | some p =>
    if p = "" then m2
    else fun k =>
      if k = profileKey then
        match m2 k with
        | some v => some v
        | none => some p
      else m2 k
  | none => m2

/-- The environment composed for an Unsloth task in `run_unsloth_task`:
`_build_env(global_env, extra := {**cfg.env, **task_cfg.env},
model_profile)`, i.e. the task layer overlays the stage layer inside
`extra`. -/
def buildTaskEnv (inherited globalEnv stageEnv taskEnv : EnvMap)
    (modelProfile : String) : EnvMap :=
  buildEnv inherited (some globalEnv) (some (mergeEnv stageEnv taskEnv))
    (some modelProfile)

/-! ### mongars_factory_cli.py: the process runner (`_run_subprocess`) -/

/-- The exceptions `_run_subprocess` can raise from a spawned child:
`subprocess.TimeoutExpired` (carrying the configured timeout) and
`subprocess.CalledProcessError` (carrying the exit code). -/
inductive RunError
  | timeoutExpired (timeout : ℚ)
  | calledProcessError (code : ℤ)
deriving DecidableEq

/-- Observable behaviour of one child process: the wall-clock time at
which it exits, the wall-clock time at which its combined stdout/stderr
pipe reaches EOF (for an ordinary child this equals the exit time, since
the pipe closes when the process exits), and its exit code. -/
structure Child where
  runtime : ℚ
  stdoutCloseTime : ℚ
  exitCode : ℤ
deriving DecidableEq

/-- Wall-clock seconds from spawn until `_run_subprocess` finishes
waiting: the output drain loop runs to pipe EOF, and `proc.wait` then
blocks until process exit if that is later. -/
def wallElapsed (c : Child) : ℚ :=
  if c.runtime ≤ c.stdoutCloseTime then c.stdoutCloseTime else c.runtime

/-- What one `_run_subprocess` call did: whether a child was spawned,
whether the child is still running when the call returns (it was either
never spawned, exited, or was killed), whether the log file was written
(header, streamed lines, finish marker — the `finally` block writes the
marker even on an exception), and the outcome. -/
structure SubprocResult where
  spawned : Bool
  childRunning : Bool
  logWritten : Bool
  result : Except RunError ℚ

/-- Model of `_run_subprocess`, threaded over an abstract external file state `σ`
(the corpus, dedup-state and any other files a spawned child mutates,
applied via `childAct`).  Control flow of the source: a dry run logs the
command and returns `0.0` before opening the log or spawning; otherwise
the child is spawned, its combined output is drained to EOF, and only
then is `proc.wait(timeout)` called — so `TimeoutExpired` fires exactly
when the child is still alive `timeout` seconds after pipe EOF, in which
case the child is killed and the exception re-raised; a non-zero exit
code raises `CalledProcessError`. -/
def runSubprocess {σ : Type} (dryRun : Bool) (timeout : Option ℚ)
    (hasLogFile : Bool) (child : Child) (childAct : σ → σ) (fs : σ) :
    SubprocResult × σ :=
  if dryRun then
    (⟨false, false, false, .ok 0⟩, fs)
  else
    let fs' := childAct fs
    let finish : SubprocResult × σ :=
      if child.exitCode ≠ 0 then
        (⟨true, false, hasLogFile, .error (.calledProcessError child.exitCode)⟩,
          fs')
      else
        (⟨true, false, hasLogFile, .ok (wallElapsed child)⟩, fs')
    match timeout with
    | some t =>
      if child.stdoutCloseTime + t < child.runtime then
        (⟨true, false, hasLogFile, .error (.timeoutExpired t)⟩, fs')
      else finish
    | none => finish

/-! ### mongars_factory_cli.py: run-all orchestration -/

/-- Outcome of one stage/task child process as seen by `run_stage` /
`run_unsloth_task` (both delegate to `_run_subprocess`). -/
inductive ChildResult
  | ok (elapsed : ℚ)
  | fail (code : ℤ)
  | timedOut (timeout : ℚ)
deriving DecidableEq

/-- One slot of the fixed `run-all` topology: its name, whether the
required-stage policy applies (`mlc_export` only), `run = some r` when
the slot is configured and enabled (so its child runs with result `r`),
and the skip note otherwise. -/
structure Slot where
  name : String
  required : Bool
  run : Option ChildResult
  skipNote : String
deriving DecidableEq

/-- A line of the `run-all` summary: a ran stage with its elapsed time,
or a skipped stage with its note. -/
inductive StageRec
  | ran (name : String) (elapsed : ℚ)
  | skipped (name note : String)
deriving DecidableEq

/-- Mutable state of `cli_run_all`: `grand_total`, the summary rows, the
`exit_code` local, and the names of slots whose child was invoked. -/
structure OrchSt where
  grandTotal : ℚ
  records : List StageRec
  exitCode : Nat
  executed : List String
deriving DecidableEq

/-- The initial `cli_run_all` state. -/
def initOrch : OrchSt :=
  { grandTotal := 0, records := [], exitCode := 0, executed := [] }

/-- Walk the slot list in order, as `_record_stage` / `_handle_unsloth`
do: a runnable slot spawns its child — success accumulates into the
summary and the grand total, while a failure or timeout raises and stops
the walk (the exception propagates out of `cli_run_all`); a skipped slot
records a skip note and, when the slot is required, sets the exit code to
`1` and continues. -/
def runSlots : List Slot → OrchSt → OrchSt × Option RunError
  | [], st => (st, none)
  | s :: rest, st =>
    match s.run with
    | some (.ok e) =>
      runSlots rest
        { grandTotal := st.grandTotal + e,
          records := st.records ++ [.ran s.name e],
          exitCode := st.exitCode,
          executed := st.executed ++ [s.name] }
    | some (.fail code) =>
      ({ st with executed := st.executed ++ [s.name] },
        some (.calledProcessError code))
    | some (.timedOut t) =>
      ({ st with executed := st.executed ++ [s.name] },
        some (.timeoutExpired t))
    | none =>
      runSlots rest
        { st with
          records := st.records ++ [.skipped s.name s.skipNote],
          exitCode := if s.required then 1 else st.exitCode }

/-- Configuration slice of `FactoryConfig` that drives `cli_run_all`:
for each stage slot, `none` means not configured, `some (enabled, r)`
means configured with that enabled flag and (if run) child result; the
Unsloth group carries its enabled flag and named task results. -/
structure RunAllCfg where
  datasets : Option (Bool × ChildResult)
  embeddings : Option (Bool × ChildResult)
  unslothTasks : Option (Bool × List (String × ChildResult))
  exportStage : Option (Bool × ChildResult)
  mlcExport : Option (Bool × ChildResult)
deriving DecidableEq

/-- A stage slot runs exactly when it is configured and enabled. -/
def stageRun (cfg : Option (Bool × ChildResult)) : Option ChildResult :=
  match cfg with
  | some (true, r) => some r
  | _ => none

/-- The skip note `_record_stage` attaches: `disabled` when a descriptor
exists but is disabled, `not configured` when absent. -/
def stageNote (cfg : Option (Bool × ChildResult)) : String :=
  match cfg with
  | some (false, _) => "disabled"
  | none => "not configured"
  | _ => ""

/-- The Unsloth slots of `_handle_unsloth`: when enabled with tasks, one
runnable slot per task in order; when enabled with no tasks, disabled, or
absent, a single skipped (never required) slot. -/
def unslothSlots (c : RunAllCfg) : List Slot :=
  match c.unslothTasks with
  | some (true, tasks) =>
    if tasks = [] then
      [{ name := "unsloth", required := false, run := none, skipNote := "no tasks" }]
    else
      tasks.map (fun nr =>
        { name := "unsloth:" ++ nr.1, required := false, run := some nr.2,
          skipNote := "" })
  | some (false, _) =>
    [{ name := "unsloth", required := false, run := none, skipNote := "disabled" }]
  | none =>
    [{ name := "unsloth", required := false, run := none,
       skipNote := "not configured" }]

/-- The fixed `run-all` topology:
datasets → embeddings → unsloth tasks → export → mlc_export, with the
required policy only on `mlc_export`. -/
def slots (c : RunAllCfg) : List Slot :=
  [{ name := "datasets", required := false, run := stageRun c.datasets,
     skipNote := stageNote c.datasets },
   { name := "embeddings", required := false, run := stageRun c.embeddings,
     skipNote := stageNote c.embeddings }]
  ++ unslothSlots c
  ++ [{ name := "export", required := false, run := stageRun c.exportStage,
        skipNote := stageNote c.exportStage },
      { name := "mlc_export", required := true, run := stageRun c.mlcExport,
        skipNote := stageNote c.mlcExport }]

/-- Result of one `cli_run_all` invocation: the summary rows and totals,
whether the summary document was written to the run directory (it is
written only when no exception escaped a stage), the escaped exception if
any, and the `exit_code` local (the process exit status when nothing was
raised: `typer.Exit(1)` on a required-stage violation, a plain return —
status `0` — otherwise). -/
structure RunAllResult where
  records : List StageRec
  executed : List String
  grandTotal : ℚ
  summaryWritten : Bool
  raised : Option RunError
  exitCode : Nat

/-- Model of `cli_run_all`: walk the topology; when the walk completes, write the
summary and exit with the accumulated exit code; when a stage raised, the
exception propagates before `_write_run_summary` runs. -/
def runAll (c : RunAllCfg) : RunAllResult :=
  let r := runSlots (slots c) initOrch
  { records := r.1.records, executed := r.1.executed,
    grandTotal := r.1.grandTotal, summaryWritten := r.2.isNone,
    raised := r.2, exitCode := r.1.exitCode }

/-- The overall process exit status of a `run-all` invocation: an escaped
exception makes the interpreter exit non-zero; otherwise the accumulated
exit code is used. -/
def processExit (r : RunAllResult) : Nat :=
  match r.raised with
  | some _ => 1
  | none => r.exitCode

/-- Did this slot's child (if any) succeed? -/
def slotOk (s : Slot) : Bool :=
  match s.run with
  | some (.ok _) => true
  | some _ => false
  | none => true

/-- Is this slot a skipped required stage? -/
def requiredSkip (s : Slot) : Bool :=
  s.required && s.run.isNone

/-- Is `mlc_export` configured and enabled? -/
def mlcConfiguredEnabled (c : RunAllCfg) : Bool :=
  match c.mlcExport with
  | some (true, _) => true
  | _ => false

/-! ### Specification-side definitions and concrete fixtures -/

/-- Right-biased-else-left choice on optional values; the building block
used to state environment-layer precedence. -/
def pick (a b : Option String) : Option String :=
  match a with
  | some v => some v
  | none => b

/-- First-match keyword-table semantics, written from the spec's words:
an ordered list of (keyword group, label) rules, evaluated in order with
case-insensitive substring containment, defaulting to `instruction`. -/
def firstGroupLabel (lower : String) : List (List String × String) → String
  | [] => "instruction"
  | g :: rest =>
    if g.1.any (fun k => strContains lower k) then g.2
    else firstGroupLabel lower rest

/-- The keyword table exactly as the claim states it (three keywords in
the retrieval group). -/
def claimKeywordGroups : List (List String × String) :=
  [(["dialog", "chat", "conversation"], "dialog"),
   (["reason", "cot", "step"], "reasoning"),
   (["retrieval", "qa", "rag"], "retrieval")]

/-- The task-label function exactly as the claim states it. -/
def inferTaskClaimed (name : String) : String :=
  firstGroupLabel (lowerStr name) claimKeywordGroups

/-- The keyword table the source actually uses (the retrieval group also
contains `q&a`). -/
def sourceKeywordGroups : List (List String × String) :=
  [(["dialog", "chat", "conversation"], "dialog"),
   (["reason", "cot", "step"], "reasoning"),
   (["retrieval", "qa", "q&a", "rag"], "retrieval")]

/-- The amended-claim task-label function: the source's keyword table
evaluated by the spec's first-match rule. -/
def inferTaskByGroups (name : String) : String :=
  firstGroupLabel (lowerStr name) sourceKeywordGroups

/-- A minimal dataset entry with default field mappings. -/
def entryDemo : DatasetEntry :=
  { name := "demo", promptField := "prompt", responseField := "response",
    contextField := none, language := none, maxExamples := none }

/-- Fixture: `entryDemo` with a per-entry cap of 2. -/
def entryCapTwo : DatasetEntry :=
  { entryDemo with maxExamples := some 2 }

/-- A run config with no language filter and a default cap of 0
(Python-falsy). -/
def cfgNoCap : PrepConfig :=
  { langs := [], maxPerDataset := 0 }

/-- A run config with no language filter and the CLI-default cap. -/
def cfgDefault : PrepConfig :=
  { langs := [], maxPerDataset := 50000 }

/-- One well-formed source row. -/
def rowHello : Row := [("prompt", "Hello"), ("response", "World")]

/-- A single-row source. -/
def rowsOne : List Row := [rowHello]

/-- A three-row source. -/
def rowsThree : List Row :=
  [rowHello, [("prompt", "a"), ("response", "b")],
   [("prompt", "c"), ("response", "d")]]

/-- A one-entry manifest. -/
def manifestDemo : List (DatasetEntry × List Row) := [(entryDemo, rowsOne)]

/-- A concrete canonical example. -/
def exampleDemo : CanonicalExample :=
  { prompt := "p", response := "r", language := "unknown",
    task := "instruction", context := none, source := "demo" }

/-- Inherited environment fixture. -/
def envI : EnvMap := fun k => if k = "K" then some "i" else none

/-- Global environment fixture. -/
def envG : EnvMap := fun k => if k = "K" then some "g" else none

/-- Stage environment fixture. -/
def envS : EnvMap := fun k => if k = "K" then some "s" else none

/-- Task environment fixture (binds nothing). -/
def envT : EnvMap := fun _ => none

/-- A child that runs for 5 seconds, keeps its stdout open until it
exits (the ordinary case), and exits cleanly. -/
def childOpenPipe : Child :=
  { runtime := 5, stdoutCloseTime := 5, exitCode := 0 }

/-- A run-all config whose datasets child fails while everything else,
including the required `mlc_export` stage, is fine. -/
def cfgRunAllFail : RunAllCfg :=
  { datasets := some (true, .fail 3), embeddings := some (true, .ok 1),
    unslothTasks := none, exportStage := some (true, .ok 1),
    mlcExport := some (true, .ok 1) }

/-- A run-all config with every configured child succeeding but no
`mlc_export` stage. -/
def cfgRunAllNoMlc : RunAllCfg :=
  { datasets := some (true, .ok 1), embeddings := none,
    unslothTasks := some (true, [("dialog", .ok 2)]),
    exportStage := some (false, .ok 0), mlcExport := none }

/-- An extra runnable slot, used to exhibit that slots after a failure
are never reached. -/
def extraSlot : Slot :=
  { name := "extra", required := false, run := some (.ok 1), skipNote := "" }

/-! ### Helper lemmas: the dedup loop -/

theorem processExample_of_mem (st : PrepState) (ex : CanonicalExample)
    (h : prepKey ex ∈ st.seen) : processExample st ex = st := by
  simp [processExample, isNewKey, h]

theorem processExample_of_not_mem (st : PrepState) (ex : CanonicalExample)
    (h : prepKey ex ∉ st.seen) :
    processExample st ex
      = { seen := prepKey ex :: st.seen, written := st.written ++ [ex] } := by
  simp [processExample, isNewKey, h]

theorem processExample_seen_mono (st : PrepState) (ex : CanonicalExample) :
    st.seen ⊆ (processExample st ex).seen := by
  by_cases h : prepKey ex ∈ st.seen
  · rw [processExample_of_mem st ex h]
    exact List.Subset.refl _
  · rw [processExample_of_not_mem st ex h]
    exact fun x hx => List.mem_cons_of_mem _ hx

theorem processExample_key_mem (st : PrepState) (ex : CanonicalExample) :
    prepKey ex ∈ (processExample st ex).seen := by
  by_cases h : prepKey ex ∈ st.seen
  · rw [processExample_of_mem st ex h]; exact h
  · rw [processExample_of_not_mem st ex h]; exact List.mem_cons_self _ _

theorem foldl_seen_mono (exs : List CanonicalExample) :
    ∀ st : PrepState, st.seen ⊆ (exs.foldl processExample st).seen := by
  induction exs with
  | nil => intro st; simp
  | cons a rest ih =>
    intro st
    simpa using (processExample_seen_mono st a).trans (ih (processExample st a))

theorem foldl_seen_mem (exs : List CanonicalExample) :
    ∀ (st : PrepState) (ex : CanonicalExample), ex ∈ exs →
      prepKey ex ∈ (exs.foldl processExample st).seen := by
  induction exs with
  | nil => intro st ex h; simp at h
  | cons a rest ih =>
    intro st ex h
    rcases List.mem_cons.mp h with h | h
    · subst h
      simpa using foldl_seen_mono rest (processExample st ex)
        (processExample_key_mem st ex)
    · simpa using ih (processExample st a) ex h

theorem foldl_written_keys_not_in (S : List String) (exs : List CanonicalExample) :
    ∀ st : PrepState, S ⊆ st.seen → (∀ e ∈ st.written, prepKey e ∉ S) →
      ∀ e ∈ (exs.foldl processExample st).written, prepKey e ∉ S := by
  induction exs with
  | nil => intro st _ hw; simpa using hw
  | cons a rest ih =>
    intro st hS hw
    simp only [List.foldl_cons]
    apply ih
    · exact hS.trans (processExample_seen_mono st a)
    · by_cases hmem : prepKey a ∈ st.seen
      · rw [processExample_of_mem st a hmem]; exact hw
      · rw [processExample_of_not_mem st a hmem]
        intro e he
        rcases List.mem_append.mp he with he | he
        · exact hw e he
        · rcases List.mem_singleton.mp he with rfl
          exact fun hin => hmem (hS hin)

theorem foldl_no_new_writes (exs : List CanonicalExample) :
    ∀ st : PrepState, (∀ e ∈ exs, prepKey e ∈ st.seen) →
      exs.foldl processExample st = st := by
  induction exs with
  | nil => intro st _; rfl
  | cons a rest ih =>
    intro st h
    simp only [List.foldl_cons]
    rw [processExample_of_mem st a (h a (List.mem_cons_self a rest))]
    exact ih st fun e he => h e (List.mem_cons_of_mem a he)

/-! ### Helper lemmas: environment layering -/

theorem pick_assoc (a b c : Option String) :
    pick (pick a b) c = pick a (pick b c) := by
  cases a <;> rfl

theorem mergeEnv_pick (base overlay : EnvMap) (k : String) :
    mergeEnv base overlay k = pick (overlay k) (base k) := rfl

/-! ### Helper lemmas: the run-all walk -/

theorem runSlots_all_ok (l : List Slot) :
    ∀ st : OrchSt, l.all slotOk = true →
      (runSlots l st).2 = none ∧
      (runSlots l st).1.exitCode
        = (if l.any requiredSkip then 1 else st.exitCode) := by
  induction l with
  | nil => intro st _; simp [runSlots]
  | cons s rest ih =>
    intro st h
    simp only [List.all_cons, Bool.and_eq_true] at h
    obtain ⟨hs, hrest⟩ := h
    cases hrun : s.run with
    | none =>
      simp only [runSlots, hrun, List.any_cons, requiredSkip]
      obtain ⟨h1, h2⟩ := ih _ hrest
      refine ⟨h1, ?_⟩
      rw [h2]
      cases hreq : s.required <;> cases hany : rest.any requiredSkip <;>
        simp [hrun, hreq, hany]
    | some r =>
      cases r with
      | ok e =>
        simp only [runSlots, hrun, List.any_cons, requiredSkip]
        obtain ⟨h1, h2⟩ := ih _ hrest
        refine ⟨h1, ?_⟩
        rw [h2]
        simp [hrun]
      | fail code => simp [slotOk, hrun] at hs
      | timedOut t => simp [slotOk, hrun] at hs

theorem unslothSlots_no_requiredSkip (c : RunAllCfg) :
    (unslothSlots c).any requiredSkip = false := by
  rw [List.any_eq_false]
  intro s hs
  unfold unslothSlots at hs
  rcases hcfg : c.unslothTasks with _ | ⟨b, tasks⟩ <;> rw [hcfg] at hs
  · rcases List.mem_singleton.mp hs with rfl
    simp [requiredSkip]
  · cases b
    · rcases List.mem_singleton.mp hs with rfl
      simp [requiredSkip]
    · have hs2 : s ∈ (if tasks = [] then
          [({ name := "unsloth", required := false, run := none,
              skipNote := "no tasks" } : Slot)]
        else tasks.map (fun nr =>
          ({ name := "unsloth:" ++ nr.1, required := false, run := some nr.2,
             skipNote := "" } : Slot))) := hs
      by_cases h : tasks = []
      · rw [if_pos h] at hs2
        rcases List.mem_singleton.mp hs2 with rfl
        simp [requiredSkip]
      · rw [if_neg h] at hs2
        obtain ⟨nr, _, rfl⟩ := List.mem_map.mp hs2
        simp [requiredSkip]

theorem slots_any_requiredSkip (c : RunAllCfg) :
    (slots c).any requiredSkip = !(mlcConfiguredEnabled c) := by
  simp only [slots, List.any_append, List.any_cons, List.any_nil,
    unslothSlots_no_requiredSkip c, requiredSkip]
  cases hm : c.mlcExport with
  | none => simp [mlcConfiguredEnabled, hm, stageRun]
  | some br =>
    obtain ⟨b, r⟩ := br
    cases b <;> simp [mlcConfiguredEnabled, hm, stageRun]

theorem runSlots_append_of_raise (l₂ : List Slot) (e : RunError)
    (l₁ : List Slot) :
    ∀ st : OrchSt, (runSlots l₁ st).2 = some e →
      runSlots (l₁ ++ l₂) st = runSlots l₁ st := by
  induction l₁ with
  | nil => intro st h; simp [runSlots] at h
  | cons s rest ih =>
    intro st h
    cases hrun : s.run with
    | none =>
      simp only [runSlots, hrun] at h ⊢
      exact ih _ h
    | some r =>
      cases r with
      | ok e' =>
        simp only [runSlots, hrun] at h ⊢
        exact ih _ h
      | fail code => simp [runSlots, hrun]
      | timedOut t => simp [runSlots, hrun]

/-! ### Claim theorems -/

/-- C1: every hash present in the dedup state loaded at the start of a
dataset run is never re-emitted — each row appended during the run has a
key outside the loaded set — and a second run of the engine against the
same manifest (hence the same canonical example stream) and the state
persisted by the first run appends zero new rows, leaving the corpus file
unchanged. -/
theorem dedup_loaded_hashes_never_reemitted (shuffle : List Nat → List Nat)
    (cfg : PrepConfig) (manifest : List (DatasetEntry × List Row))
    (S : List String) :
    (∀ e ∈ (prepareRun shuffle cfg manifest S).written, prepKey e ∉ S) ∧
    (prepareRun shuffle cfg manifest
        (prepareRun shuffle cfg manifest S).seen).written = [] := by
  constructor
  · exact foldl_written_keys_not_in S (manifestExamples shuffle cfg manifest)
      ⟨S, []⟩ (List.Subset.refl S) (by intro e he; simp at he)
  · have hkeys : ∀ e ∈ manifestExamples shuffle cfg manifest,
        prepKey e ∈ (prepareRun shuffle cfg manifest S).seen := by
      intro e he
      exact foldl_seen_mem (manifestExamples shuffle cfg manifest) ⟨S, []⟩ e he
    show ((manifestExamples shuffle cfg manifest).foldl processExample
        ⟨(prepareRun shuffle cfg manifest S).seen, []⟩).written = []
    rw [foldl_no_new_writes (manifestExamples shuffle cfg manifest)
      ⟨(prepareRun shuffle cfg manifest S).seen, []⟩ hkeys]

/-- Witness for C1 at a concrete manifest and loaded state. -/
theorem dedup_loaded_hashes_never_reemitted_witness :
    (∀ e ∈ (prepareRun id cfgDefault manifestDemo ["h0"]).written,
        prepKey e ∉ ["h0"]) ∧
    (prepareRun id cfgDefault manifestDemo
        (prepareRun id cfgDefault manifestDemo ["h0"]).seen).written = [] :=
  dedup_loaded_hashes_never_reemitted id cfgDefault manifestDemo ["h0"]

/-- C2: the environment built for a child process resolves every key by
task value, else stage value, else global value, else inherited value;
and the build-profile marker key receives the configured (non-empty)
profile only when no layer supplies it, so an explicit binding at any
layer — the global layer included — wins over the default. -/
theorem build_env_layer_precedence_and_marker
    (inherited g s t : EnvMap) (p : String) (hp : p ≠ "") :
    (∀ k, k ≠ profileKey →
        buildTaskEnv inherited g s t p k
          = pick (t k) (pick (s k) (pick (g k) (inherited k)))) ∧
    buildTaskEnv inherited g s t p profileKey
      = pick (t profileKey) (pick (s profileKey)
          (pick (g profileKey) (pick (inherited profileKey) (some p)))) := by
  have hm : ∀ k, mergeEnv (mergeEnv inherited g) (mergeEnv s t) k
      = pick (t k) (pick (s k) (pick (g k) (inherited k))) := by
    intro k
    rw [mergeEnv_pick, mergeEnv_pick, mergeEnv_pick, pick_assoc]
  have hb0 : buildTaskEnv inherited g s t p
      = (if p = "" then mergeEnv (mergeEnv inherited g) (mergeEnv s t)
         else fun k => if k = profileKey then
             pick (mergeEnv (mergeEnv inherited g) (mergeEnv s t) k) (some p)
           else mergeEnv (mergeEnv inherited g) (mergeEnv s t) k) := rfl
  rw [if_neg hp] at hb0
  constructor
  · intro k hk
    have hbk := congrFun hb0 k
    simp only [] at hbk
    rw [hbk, if_neg hk, hm k]
  · have hbk := congrFun hb0 profileKey
    simp only [] at hbk
    rw [hbk, if_pos trivial, hm profileKey, pick_assoc, pick_assoc, pick_assoc]

/-- Witness for C2: with the key bound at the stage and global layers
only, the stage value wins. -/
theorem build_env_layer_precedence_and_marker_witness :
    ("prof" : String) ≠ "" ∧ ("K" : String) ≠ profileKey ∧
    buildTaskEnv envI envG envS envT "prof" "K" = some "s" := by
  have h := (build_env_layer_precedence_and_marker envI envG envS envT "prof"
    (by decide)).1 "K" (by decide)
  have h2 : pick (envT "K") (pick (envS "K") (pick (envG "K") (envI "K")))
      = some "s" := by decide
  exact ⟨by decide, by decide, h.trans h2⟩

/-- C3: when every invoked child process succeeds, a `run-all` invocation
raises nothing and its process exit status is zero exactly when
`mlc_export` is configured and enabled, and one when it is absent or
disabled. -/
theorem run_all_required_mlc_exit_status (c : RunAllCfg)
    (h : (slots c).all slotOk = true) :
    (runAll c).raised = none ∧
    processExit (runAll c) = (if mlcConfiguredEnabled c then 0 else 1) := by
  obtain ⟨h1, h2⟩ := runSlots_all_ok (slots c) initOrch h
  have hr : (runAll c).raised = none := h1
  refine ⟨hr, ?_⟩
  unfold processExit
  rw [hr]
  show (runAll c).exitCode = _
  have h3 : (runAll c).exitCode = (runSlots (slots c) initOrch).1.exitCode := rfl
  rw [h3, h2, slots_any_requiredSkip]
  cases hb : mlcConfiguredEnabled c <;> simp [initOrch]

/-- Witness for C3: a config with all children succeeding but no
`mlc_export` stage exits with status one. -/
theorem run_all_required_mlc_exit_status_witness :
    (slots cfgRunAllNoMlc).all slotOk = true ∧
    processExit (runAll cfgRunAllNoMlc) = 1 := by
  have h := run_all_required_mlc_exit_status cfgRunAllNoMlc (by decide)
  refine ⟨by decide, ?_⟩
  have hb : mlcConfiguredEnabled cfgRunAllNoMlc = false := rfl
  rw [h.2, hb]
  rfl

/-- C4 counterexample: being an exact duplicate is not equivalent to
having equal trimmed prompts and equal trimmed responses — the pairs
(`"a\n\nb"`, `"c"`) and (`"a"`, `"b\n\nc"`) differ in non-whitespace
content yet hash to the same dedup key, because the embedded blank line
shifts the two-newline separator. -/
theorem dedup_trim_iff_refuted :
    ¬ (∀ p₁ r₁ p₂ r₂ : String,
        dedupKey p₁ r₁ = dedupKey p₂ r₂ ↔
          (pyStrip p₁ = pyStrip p₂ ∧ pyStrip r₁ = pyStrip r₂)) := by
  intro h
  have hc := (h "a\n\nb" "c" "a" "b\n\nc").mp (by decide)
  exact absurd hc.1 (by decide)

/-- C4 amended: the dedup decision is equality of the content hash over
(trimmed prompt, two newlines, trimmed response); equal trimmed prompts
and equal trimmed responses always give equal keys (hence a duplicate),
but the converse can fail when embedded blank lines shift the
separator. -/
theorem dedup_key_equal_of_trimmed_equal (p₁ r₁ p₂ r₂ : String)
    (hp : pyStrip p₁ = pyStrip p₂) (hr : pyStrip r₁ = pyStrip r₂) :
    dedupKey p₁ r₁ = dedupKey p₂ r₂ := by
  unfold dedupKey
  rw [hp, hr]

/-- Witness for the amended C4 at concrete strings differing only in
surrounding whitespace. -/
theorem dedup_key_equal_of_trimmed_equal_witness :
    pyStrip " a" = pyStrip "a " ∧ pyStrip "b" = pyStrip " b" ∧
    dedupKey " a" "b" = dedupKey "a " " b" :=
  ⟨by decide, by decide,
    dedup_key_equal_of_trimmed_equal " a" "b" "a " " b" (by decide) (by decide)⟩

/-- C5 counterexample: in a `run-all` invocation whose datasets child
fails, the exception escapes before `_write_run_summary` runs, so no run
summary document is written — contradicting the claim that one is. -/
theorem run_all_failure_summary_refuted :
    (runAll cfgRunAllFail).raised = some (.calledProcessError 3) ∧
    (runAll cfgRunAllFail).summaryWritten = false :=
  ⟨rfl, rfl⟩

/-- C5 amended: when an executed stage or task fails or times out, no
subsequent slot of the topology runs (the walk ignores everything after
the raising prefix), and the invocation aborts without writing the run
summary document. -/
theorem run_all_failure_aborts_without_summary (c : RunAllCfg) (e : RunError)
    (h : (runAll c).raised = some e) :
    (runAll c).summaryWritten = false ∧
    ∀ l₂ : List Slot,
      runSlots (slots c ++ l₂) initOrch = runSlots (slots c) initOrch := by
  constructor
  · have h2 : (runSlots (slots c) initOrch).2 = some e := h
    show (runSlots (slots c) initOrch).2.isNone = false
    rw [h2]
    rfl
  · intro l₂
    exact runSlots_append_of_raise l₂ e (slots c) initOrch h

/-- Witness for the amended C5 at a concrete failing config. -/
theorem run_all_failure_aborts_without_summary_witness :
    (runAll cfgRunAllFail).summaryWritten = false ∧
    runSlots (slots cfgRunAllFail ++ [extraSlot]) initOrch
      = runSlots (slots cfgRunAllFail) initOrch := by
  have h := run_all_failure_aborts_without_summary cfgRunAllFail
    (.calledProcessError 3) rfl
  exact ⟨h.1, h.2 [extraSlot]⟩

/-- C6: evaluation of the runner at the claim's own scenario — a stage
with a 1-second timeout whose child runs for 5 seconds (stdout open
until exit, the ordinary case).  The output drain loop reaches EOF only
when the child exits, `proc.wait(timeout=1)` then returns immediately,
and the call succeeds with elapsed 5 instead of raising the timeout
error: the configured wall-clock timeout is not enforced. -/
theorem timeout_unenforced_for_open_stdout_child :
    (runSubprocess (σ := Unit) false (some 1) true childOpenPipe id ()).1.result
      = .ok 5 ∧
    (runSubprocess (σ := Unit) false (some 1) true childOpenPipe id
        ()).1.spawned = true := by
  constructor <;> norm_num [runSubprocess, childOpenPipe, wallElapsed]

/-- C7 counterexample: with no entry-level cap and a run-level default
cap of 0 (Python-falsy), a one-row source yields one canonical example,
exceeding the claim's effective cap of 0 — the subsampling guard
`if max_examples and ...` treats a zero cap as "no cap". -/
theorem subsample_cap_claim_refuted :
    ¬ ((iterExamplesForEntry id entryDemo cfgNoCap rowsOne).length
        ≤ entryDemo.maxExamples.getD cfgNoCap.maxPerDataset) := by
  decide

/-- C7 amended: the effective cap is the entry-level cap when set and
nonzero, else the run-level default; whenever the effective cap is
nonzero, the canonical-example count for the entry never exceeds it (a
zero effective cap disables subsampling). -/
theorem subsample_cap_bound (shuffle : List Nat → List Nat)
    (entry : DatasetEntry) (cfg : PrepConfig) (rows : List Row)
    (h : effectiveMax entry cfg ≠ 0) :
    (iterExamplesForEntry shuffle entry cfg rows).length
      ≤ effectiveMax entry cfg := by
  unfold iterExamplesForEntry selectedRows
  by_cases hgt : rows.length > effectiveMax entry cfg
  · rw [if_pos ⟨h, hgt⟩]
    exact (List.length_filterMap_le _ _).trans
      ((List.length_filterMap_le _ _).trans (List.length_take_le _ _))
  · rw [if_neg (fun hc => hgt hc.2)]
    exact (List.length_filterMap_le _ _).trans (Nat.le_of_not_lt hgt)

/-- Witness for the amended C7: an entry cap of 2 over a three-row
source yields at most 2 canonical examples. -/
theorem subsample_cap_bound_witness :
    effectiveMax entryCapTwo cfgDefault ≠ 0 ∧
    (iterExamplesForEntry id entryCapTwo cfgDefault rowsThree).length
      ≤ effectiveMax entryCapTwo cfgDefault :=
  ⟨by decide, subsample_cap_bound id entryCapTwo cfgDefault rowsThree (by decide)⟩

/-- C8 counterexample: the claim's three-keyword retrieval group misses
the source's `q&a` keyword — on the name `"q&a"` the source labels
`retrieval` while the claimed four-group table labels `instruction`. -/
theorem infer_task_keyword_groups_refuted :
    ¬ (∀ name : String, inferTaskFromName name = inferTaskClaimed name) := by
  intro h
  exact absurd (h "q&a") (by decide)

/-- C8 amended: the inferred task label is computed by exactly four
ordered, case-insensitive substring keyword groups with first match
winning, where the retrieval group is retrieval/qa/q&a/rag. -/
theorem infer_task_matches_group_table (name : String) :
    inferTaskFromName name = inferTaskByGroups name := rfl

/-- C9: with dry-run enabled the process runner returns elapsed 0.0,
spawns no child, writes no log, and leaves every external file — corpus
and dedup state included — untouched. -/
theorem dry_run_no_spawn_no_side_effects {σ : Type} (timeout : Option ℚ)
    (hasLogFile : Bool) (child : Child) (childAct : σ → σ) (fs : σ) :
    runSubprocess true timeout hasLogFile child childAct fs
      = ({ spawned := false, childRunning := false, logWritten := false,
           result := .ok 0 }, fs) := rfl

/-- C10: a dedup state file that exists but cannot be parsed, or whose
top level is not a list, loads as a warning plus an empty seen-set, so
the run proceeds with no memory of earlier hashes and a previously seen
example is written to the corpus again. -/
theorem dedup_load_corrupt_starts_fresh (f : DedupFile)
    (h : f = .unparsable ∨ f = .notAList) :
    (dedupLoad f).warned = true ∧ (dedupLoad f).seen = [] ∧
    ∀ ex : CanonicalExample,
      (prepareDatasets (dedupLoad f).seen [ex]).written = [ex] := by
  have hwrite : ∀ ex : CanonicalExample,
      (prepareDatasets [] [ex]).written = [ex] := by
    intro ex
    show (processExample ⟨[], []⟩ ex).written = [ex]
    rw [processExample_of_not_mem ⟨[], []⟩ ex (by simp)]
    simp
  rcases h with rfl | rfl
  · exact ⟨rfl, rfl, hwrite⟩
  · exact ⟨rfl, rfl, hwrite⟩

/-- Witness for C10 at a concrete unparsable state file and example. -/
theorem dedup_load_corrupt_starts_fresh_witness :
    (dedupLoad .unparsable).warned = true ∧
    (dedupLoad .unparsable).seen = [] ∧
    (prepareDatasets (dedupLoad .unparsable).seen [exampleDemo]).written
      = [exampleDemo] := by
  have h := dedup_load_corrupt_starts_fresh .unparsable (Or.inl rfl)
  exact ⟨h.1, h.2.1, h.2.2 exampleDemo⟩

end MonGars
